import Mathlib

/-!
# Verification of the waybar mediaplayer helper script

A shallow embedding of `dotfiles/.config/waybar/scripts/mediaplayer.py`.

The script is a one-shot poller: it enumerates running MPRIS players via
`playerctl --list-all`, filters them by a forced player / exclusion list,
picks one player with a "sticky" memory of the last choice (persisted in a
small JSON state file), queries metadata for the chosen player and prints
one JSON line for waybar.

External effects are modelled as explicit parameters:
* the stdout of `playerctl --list-all` (already stripped by `run_playerctl`)
  is a `String` parameter;
* the per-player status lookup (`playerctl --player NAME status`) is a
  function `String → String`;
* the persisted state file is an explicit `Option StateData` value
  (`none` models a missing or corrupt file);
* the possibility of an exception inside a step of `main` is modelled by
  `StepResult`.

Python truthiness on optional strings (`if selected:`, `if last_player:`,
`if not player_name:`) is modelled by `opt_truthy`: `none` and `some ""`
are falsy.  Python's string primitives are modelled by structurally
recursive functions on `List Char` (`py_lower`, `py_strip`, `splitlines`,
`str_contains`) so that every definition evaluates inside the kernel;
`str.lower` / `str.isalnum` are modelled by the ASCII `Char.toLower` /
`Char.isAlphanum`, which only differs on non-ASCII player names and
affects none of the stated properties.
-/

/-- Python truthiness of an `Optional[str]`: `None` and `""` are falsy. -/
def opt_truthy : Option String → Bool
  | none => false
  | some s => !(s == "")

/-- Python `str.lower`, modelled on ASCII letters. -/
def py_lower (s : String) : String :=
  String.mk (s.data.map Char.toLower)

/-- Python `str.strip()` with no argument: drop leading and trailing
whitespace. -/
def py_strip (s : String) : String :=
  String.mk
    (((s.data.dropWhile Char.isWhitespace).reverse.dropWhile Char.isWhitespace).reverse)

/-- Split a character list at newline characters, keeping empty pieces
(the caller filters them out); models `str.splitlines` on the
newline-separated output of `playerctl --list-all`. -/
def split_newlines : List Char → List String
  | [] => [""]
  | c :: rest =>
    if c = '\n' then "" :: split_newlines rest
    else
      match split_newlines rest with
      | [] => [String.mk [c]]
      | s :: ss => String.mk (c :: s.data) :: ss

/-- Helper for substring search: does `needle` occur in the list? -/
def contains_sub (needle : List Char) : List Char → Bool
  | [] => needle.isEmpty
  | c :: rest => needle.isPrefixOf (c :: rest) || contains_sub needle rest

/-- Python `needle in hay` on strings: substring containment. -/
def str_contains (hay needle : String) : Bool :=
  contains_sub needle.data hay.data

/-- `normalize_player_name` (mediaplayer.py line 55): strip the instance
suffix, `name.split('.')[0] if '.' in name else name` — the characters
before the first `'.'`. -/
def normalize_player_name (name : String) : String :=
  if name.data.contains '.' then String.mk (name.data.takeWhile (fun c => !(c == '.')))
  else name

/-- Python `str.strip("_.")`: drop leading and trailing `'_'` / `'.'`. -/
def strip_marks (s : String) : String :=
  String.mk
    (((s.data.dropWhile (fun c => c == '_' || c == '.')).reverse.dropWhile
        (fun c => c == '_' || c == '.')).reverse)

/-- `slugify_class` (line 60): lowercase, keep alphanumerics and `'.'`,
replace everything else by `'_'`, strip leading/trailing `'_'`/`'.'`,
fall back to `"player"` when empty. -/
def slugify_class (s : String) : String :=
  let lowered := py_lower s
  let mapped := lowered.data.map (fun ch => if ch.isAlphanum || ch == '.' then ch else '_')
  let token := strip_marks (String.mk mapped)
  if token = "" then "player" else token

/-- Line 89: `[n.strip() for n in names_str.splitlines() if n.strip()]`. -/
def parse_player_list (names_str : String) : List String :=
  ((split_newlines names_str.data).map py_strip).filter (fun n => !(n == ""))

/-- Lines 93-101: restrict to the forced player (matched by normalized
identity) when one was given (truthy), else drop candidates whose
normalized identity is in the exclusion set (built from the truthy
entries of `excluded`, line 81). -/
def filtered_players (selected : Option String) (excluded : List String)
    (names : List String) : List String :=
  if opt_truthy selected then
    names.filter (fun n =>
      normalize_player_name n == normalize_player_name (selected.getD ""))
  else
    names.filter (fun n =>
      !((excluded.filter (fun p => !(p == ""))).contains (normalize_player_name n)))

/-- Lines 108-113: validate the loaded last player against the candidate
list; it becomes the first candidate with the same normalized identity,
or `none` when absent.  A falsy loaded value is left alone by the code and
never used later, which is the same as `none`. -/
def validated_last (names : List String) (last_loaded : Option String) : Option String :=
  if opt_truthy last_loaded then
    (names.filter (fun n =>
      normalize_player_name n == normalize_player_name (last_loaded.getD ""))).head?
  else none

/-- Lines 123-139: the selection policy, given the (already filtered,
nonempty in the real call) candidate list, the validated last player and
the status of each candidate.  The source's local lists
`playing = [n for n in names if statuses.get(n) == "Playing"]` and
`paused = ...` are inlined at each use. -/
def choose_from (names : List String) (last_player : Option String)
    (statuses : String → String) : Option String :=
  if !(names.filter (fun n => statuses n == "Playing")).isEmpty then
    if opt_truthy last_player && (statuses (last_player.getD "") == "Playing") then
      last_player
    else
      (names.filter (fun n => statuses n == "Playing")).head?
  else
    if opt_truthy last_player &&
        (statuses (last_player.getD "") == "Playing"
          || statuses (last_player.getD "") == "Paused") then
      last_player
    else if !(names.filter (fun n => statuses n == "Paused")).isEmpty then
      (names.filter (fun n => statuses n == "Paused")).head?
    else
      names.head?

/-- `choose_player` (lines 70-147) as a pure function of its external
inputs.  `names_str` is the stdout of `playerctl --list-all` (stripped),
`last_loaded` the result of `load_last_player`, `statuses` the per-player
status query.  The source's local `names` (the filtered candidate list)
is inlined at each use.  The `save_last_player` side effect (line 141)
and the debug prints are not part of the returned value and are modelled
separately. -/
def choose_player (selected : Option String) (excluded : List String)
    (names_str : String) (last_loaded : Option String)
    (statuses : String → String) : Option String :=
  if names_str == "" then none
  else if (filtered_players selected excluded (parse_player_list names_str)).isEmpty then
    none
  else
    choose_from (filtered_players selected excluded (parse_player_list names_str))
      (validated_last (filtered_players selected excluded (parse_player_list names_str))
        last_loaded)
      statuses

example :
    choose_player none [] "spotify.a\nspotify.b" (some "spotify.b")
      (fun _ => "Playing") = some "spotify.a" := by decide

example :
    choose_player none ["spotify"] "spotify\nvlc" none
      (fun _ => "Playing") = some "vlc" := by decide

/-- The single-field JSON object `\x7b"player": ...\x7d` kept in the state
file; `player = none` models an object without the `"player"` key. -/
structure StateData where
  player : Option String
deriving DecidableEq

/-- `save_last_player` (lines 42-52): the object written to the state file
is `\x7b"player": name\x7d`.  The I/O failure mode (exception swallowed,
file unchanged) is outside the returned value. -/
def save_last_player (name : String) : StateData :=
  ⟨some name⟩

/-- `load_last_player` (lines 31-39): `data.get("player") or None` on the
parsed state file; a missing or corrupt file (the `none` case) gives
`None`, and a falsy (empty) stored value is normalized to `None` by the
`or None`. -/
def load_last_player (file : Option StateData) : Option String :=
  match file with
  | none => none
  | some d =>
    match d.player with
    | none => none
    | some s => if s = "" then none else some s

/-- The payload dict built by `build_output`; `cls` is the `"class"` key. -/
structure Payload where
  text : String
  cls : String
  alt : String
deriving DecidableEq

/-- Lines 188-190: `Stopped` is renamed to `Paused` before display. -/
def normalized_status_of (status : Option String) : Option String :=
  if status == some "Stopped" then some "Paused" else status

/-- Lines 195-210: the display text component (`track_info`), including
the spotify advertisement special case. -/
def track_info_of (player_name : String) (artist title trackid : Option String) : String :=
  let is_spotify_ad :=
    (py_lower (normalize_player_name player_name) == "spotify")
      && (match trackid with
          | none => false
          | some t => str_contains (py_lower t) ":ad:")
  if is_spotify_ad then "Advertisement"
  else if opt_truthy artist && opt_truthy title then
    (title.getD "") ++ " - " ++ (artist.getD "")
  else if opt_truthy title then title.getD ""
  else if opt_truthy artist then artist.getD ""
  else ""

/-- `build_output` (lines 177-228): `none` models the Python `None`
("hide the module").  The source's locals `pn` (the truthy player name),
`normalized_status`, `track_info`, `icon`, `text`, `player_class` and
`css_class` are inlined at each use. -/
def build_output (player_name : Option String)
    (status artist title trackid : Option String) : Option Payload :=
  if !(opt_truthy player_name) then none
  else if !(normalized_status_of status == some "Playing"
      || normalized_status_of status == some "Paused") then none
  else if ((if normalized_status_of status == some "Playing" then "󰐊" else "󰏤") == ""
      && track_info_of (player_name.getD "") artist title trackid == "") then none
  else some
    ⟨(if !(track_info_of (player_name.getD "") artist title trackid == "")
        then (if normalized_status_of status == some "Playing" then "󰐊" else "󰏤")
          ++ "  " ++ track_info_of (player_name.getD "") artist title trackid
        else (if normalized_status_of status == some "Playing" then "󰐊" else "󰏤")),
      py_strip ("custom-" ++ slugify_class (player_name.getD "") ++ " "
        ++ py_lower ((normalized_status_of status).getD "")),
      player_name.getD ""⟩

/-- `hidden_payload` (lines 231-233), as its ordered key/value list. -/
def hidden_payload : List (String × String) :=
  [("text", ""), ("alt", ""), ("class", "hidden")]

/-- The ordered key/value list of a `build_output` payload (lines 224-228). -/
def payload_fields (p : Payload) : List (String × String) :=
  [("text", p.text), ("class", p.cls), ("alt", p.alt)]

/-- One hexadecimal digit, for JSON control-character escapes. -/
def hex_digit_char (n : Nat) : Char :=
  "0123456789abcdef".data.getD n '0'

/-- Two hexadecimal digits of `n % 256`. -/
def hex2 (n : Nat) : String :=
  String.mk [hex_digit_char ((n / 16) % 16), hex_digit_char (n % 16)]

/-- JSON string escaping of one character, as `json.dumps` does for the
characters that matter here (quote, backslash and control characters; the
stdlib additionally `\u`-escapes non-ASCII characters, which changes no
stated property). -/
def json_escape_char (c : Char) : String :=
  if c = '"' then "\\\""
  else if c = '\\' then "\\\\"
  else if c = '\n' then "\\n"
  else if c = '\t' then "\\t"
  else if c = '\r' then "\\r"
  else if c.toNat < 32 then "\\u00" ++ hex2 c.toNat
  else String.mk [c]

/-- JSON escaping of a character list. -/
def json_escape_list : List Char → String
  | [] => ""
  | c :: cs => json_escape_char c ++ json_escape_list cs

/-- A JSON string literal. -/
def json_str (s : String) : String :=
  "\"" ++ json_escape_list s.data ++ "\""

/-- The comma-separated field list of a JSON object, with `json.dumps`'s
default `", "` / `": "` separators. -/
def json_fields_str : List (String × String) → String
  | [] => ""
  | (k, v) :: rest =>
    json_str k ++ ": " ++ json_str v ++
      (match rest with
       | [] => ""
       | _ :: _ => ", ") ++ json_fields_str rest

/-- A flat JSON object with string values, `json.dumps` style. -/
def json_obj (fields : List (String × String)) : String :=
  "\x7b" ++ json_fields_str fields ++ "\x7d"

/-- The stdout line written for a `build_output` result (lines 264 and
276): `json.dumps(output if output else hidden_payload()) + "\n"`. -/
def output_line (o : Option Payload) : String :=
  (match o with
   | some p => json_obj (payload_fields p)
   | none => json_obj hidden_payload) ++ "\n"

/-- Split a character list at non-overlapping occurrences of `"|||"`,
left to right; models `meta.split("|||")` (line 161). -/
def split_triple_pipe : List Char → List String
  | '|' :: '|' :: '|' :: rest => "" :: split_triple_pipe rest
  | c :: rest =>
    match split_triple_pipe rest with
    | [] => [String.mk [c]]
    | s :: ss => String.mk (c :: s.data) :: ss
  | [] => [""]

/-- `get_player_info` (lines 150-171) as a function of the metadata query
output: parse `status|||artist|||title|||trackid`, each field stripped
and normalized to `None` when empty or missing. -/
def get_player_info (meta : String) :
    Option String × Option String × Option String × Option String :=
  if meta == "" then (none, none, none, none)
  else
    let parts := split_triple_pipe meta.data
    let field := fun (i : Nat) =>
      match parts.get? i with
      | none => none
      | some s =>
        let t := py_strip s
        if t == "" then none else some t
    (field 0, field 1, field 2, field 3)

/-- The outcome of one fallible step of `main`: a value, or a raised
exception caught by the top-level handler (lines 279-283). -/
inductive StepResult (α : Type) where
  | ok : α → StepResult α
  | raises : StepResult α
deriving DecidableEq

/-- `main` (lines 255-284) as a function from the outcomes of its two
fallible steps (player selection, metadata query) to the full stdout of
the invocation.  Every branch — including a raised exception, which the
top-level handler converts to the hidden payload — writes exactly one
JSON line. -/
def main_model (chooseR : StepResult (Option String))
    (metaR : StepResult String) : String :=
  match chooseR with
  | .raises => output_line none
  | .ok pn =>
    if !(opt_truthy pn) then output_line none
    else
      match metaR with
      | .raises => output_line none
      | .ok meta =>
        let info := get_player_info meta
        output_line (build_output pn info.1 info.2.1 info.2.2.1 info.2.2.2)

example :
    build_output (some "spotify") (some "Playing") (some "A") (some "T") (some "x:AD:y")
      = some ⟨"󰐊  Advertisement", "custom-spotify playing", "spotify"⟩ := by decide

example :
    build_output (some "My Player!") (some "Stopped") none (some "Song") none
      = some ⟨"󰏤  Song", "custom-my_player paused", "My Player!"⟩ := by
  decide

example : load_last_player (some (save_last_player "vlc")) = some "vlc" := by decide

example :
    main_model (.ok (some "vlc")) (.ok "Playing|||Artist|||Title|||id")
      = json_obj [("text", "󰐊  Title - Artist"), ("class", "custom-vlc playing"),
          ("alt", "vlc")] ++ "\n" := by decide

/-! ## Helper lemmas about the selector pipeline -/

lemma head?_some_mem {α : Type} {l : List α} {a : α} (h : l.head? = some a) : a ∈ l := by
  cases l with
  | nil => simp at h
  | cons b t =>
    simp only [List.head?, Option.some.injEq] at h
    simp [h]

lemma filter_head?_eq_find? {α : Type} (p : α → Bool) (l : List α) :
    (l.filter p).head? = l.find? p := by
  induction l with
  | nil => rfl
  | cons a t ih =>
    by_cases h : p a
    · simp [List.filter_cons, h, List.find?_cons, ih]
    · simp [List.filter_cons, h, List.find?_cons, ih]

lemma parse_player_list_empty : parse_player_list "" = [] := by decide

lemma mem_parse_ne_empty {s n : String} (h : n ∈ parse_player_list s) : n ≠ "" := by
  unfold parse_player_list at h
  have := (List.mem_filter.mp h).2
  simpa using this

lemma filtered_players_nil (sel : Option String) (exc : List String) :
    filtered_players sel exc [] = [] := by
  unfold filtered_players
  split <;> rfl

lemma mem_of_mem_filtered {sel : Option String} {exc : List String}
    {names : List String} {n : String} (h : n ∈ filtered_players sel exc names) :
    n ∈ names := by
  unfold filtered_players at h
  split at h <;> exact List.mem_of_mem_filter h

lemma validated_last_mem {names : List String} {last : Option String} {m : String}
    (h : validated_last names last = some m) : m ∈ names := by
  unfold validated_last at h
  split at h
  · exact List.mem_of_mem_filter (head?_some_mem h)
  · exact Option.noConfusion h

lemma choose_from_mem {names : List String} {last : Option String}
    {st : String → String} {p : String}
    (hlast : ∀ m, last = some m → m ∈ names)
    (h : choose_from names last st = some p) : p ∈ names := by
  unfold choose_from at h
  split at h
  · split at h
    · exact hlast p h
    · exact List.mem_of_mem_filter (head?_some_mem h)
  · split at h
    · exact hlast p h
    · split at h
      · exact List.mem_of_mem_filter (head?_some_mem h)
      · exact head?_some_mem h

lemma choose_player_eq_choose_from {sel : Option String} {exc : List String}
    {ns : String} {last : Option String} {st : String → String}
    (h : filtered_players sel exc (parse_player_list ns) ≠ []) :
    choose_player sel exc ns last st
      = choose_from (filtered_players sel exc (parse_player_list ns))
          (validated_last (filtered_players sel exc (parse_player_list ns)) last) st := by
  have hns : ns ≠ "" := by
    intro hn
    apply h
    rw [hn, parse_player_list_empty, filtered_players_nil]
  unfold choose_player
  rw [if_neg (by simpa using hns), if_neg (by simpa [List.isEmpty_iff] using h)]

lemma choose_player_mem {sel : Option String} {exc : List String} {ns : String}
    {last : Option String} {st : String → String} {p : String}
    (h : choose_player sel exc ns last st = some p) :
    p ∈ filtered_players sel exc (parse_player_list ns) := by
  by_cases hne : filtered_players sel exc (parse_player_list ns) = []
  · exfalso
    unfold choose_player at h
    by_cases hs : (ns == "") = true
    · rw [if_pos hs] at h
      exact Option.noConfusion h
    · rw [if_neg hs, if_pos (by simp [List.isEmpty_iff, hne])] at h
      exact Option.noConfusion h
  · rw [choose_player_eq_choose_from hne] at h
    exact choose_from_mem (fun m hm => validated_last_mem hm) h

lemma choose_player_nil {sel : Option String} {exc : List String} {ns : String}
    {last : Option String} {st : String → String}
    (h : filtered_players sel exc (parse_player_list ns) = []) :
    choose_player sel exc ns last st = none := by
  unfold choose_player
  by_cases hs : (ns == "") = true
  · rw [if_pos hs]
  · rw [if_neg hs, if_pos (by simp [List.isEmpty_iff, h])]

lemma mem_filtered_forced {sel : Option String} {exc : List String}
    {names : List String} {n : String} (hsel : opt_truthy sel = true)
    (h : n ∈ filtered_players sel exc names) :
    normalize_player_name n = normalize_player_name (sel.getD "") := by
  unfold filtered_players at h
  rw [if_pos hsel] at h
  simpa using (List.mem_filter.mp h).2

lemma mem_filtered_not_excluded {sel : Option String} {exc : List String}
    {names : List String} {n : String} (hsel : opt_truthy sel = false)
    (h : n ∈ filtered_players sel exc names) :
    normalize_player_name n ∉ exc.filter (fun p => !(p == "")) := by
  unfold filtered_players at h
  rw [if_neg (by simp [hsel])] at h
  have h2 := (List.mem_filter.mp h).2
  simp at h2 ⊢
  intro hx
  exact h2.resolve_left (fun hA => hA hx)

/-! ## C1: stickiness while something is Playing -/

/-- C1, literal reading, is false on the code: with two candidates of the
same normalized identity both Playing, the persisted prior choice
`"spotify.b"` is itself among the candidates with status Playing, yet
`choose_player` returns `"spotify.a"` — the *first* candidate with the
prior choice's normalized identity — not the prior choice. -/
theorem claim_C1_counterexample :
    choose_player none [] "spotify.a\nspotify.b" (some "spotify.b")
        (fun _ => "Playing") = some "spotify.a"
    ∧ "spotify.b" ∈ filtered_players none []
        (parse_player_list "spotify.a\nspotify.b")
    ∧ (fun _ : String => "Playing") "spotify.b" = "Playing"
    ∧ choose_player none [] "spotify.a\nspotify.b" (some "spotify.b")
        (fun _ => "Playing") ≠ some "spotify.b" := by
  refine ⟨by decide, by decide, rfl, by decide⟩

/-- C1 (amended): for every enumeration whose filtered candidate list
contains a Playing candidate, if some candidate matches the persisted
prior choice's normalized identity and the first such matching candidate
(`validated_last`) has status Playing, `choose_player` returns that first
matching candidate (which is the prior choice itself whenever it is the
first match); otherwise it returns the first Playing candidate in
enumeration order. -/
theorem claim_C1_sticky_playing (sel : Option String) (exc : List String)
    (ns : String) (last : Option String) (st : String → String)
    (hplay : ∃ n ∈ filtered_players sel exc (parse_player_list ns), st n = "Playing") :
    (∀ m, validated_last (filtered_players sel exc (parse_player_list ns)) last = some m →
        st m = "Playing" → choose_player sel exc ns last st = some m)
    ∧ ((∀ m, validated_last (filtered_players sel exc (parse_player_list ns)) last = some m →
          st m ≠ "Playing") →
        choose_player sel exc ns last st
          = (filtered_players sel exc (parse_player_list ns)).find?
              (fun n => st n == "Playing")) := by
  obtain ⟨n0, hn0, hst0⟩ := hplay
  have hne : filtered_players sel exc (parse_player_list ns) ≠ [] :=
    List.ne_nil_of_mem hn0
  have hplayne :
      (filtered_players sel exc (parse_player_list ns)).filter
        (fun n => st n == "Playing") ≠ [] := by
    intro hnil
    have hmem : n0 ∈ (filtered_players sel exc (parse_player_list ns)).filter
        (fun n => st n == "Playing") :=
      List.mem_filter.mpr ⟨hn0, by simp [hst0]⟩
    rw [hnil] at hmem
    exact absurd hmem (List.not_mem_nil n0)
  have hguard :
      (!((filtered_players sel exc (parse_player_list ns)).filter
        (fun n => st n == "Playing")).isEmpty) = true := by
    simp [List.isEmpty_iff, hplayne]
  constructor
  · intro m hm hstm
    have hmne : m ≠ "" :=
      mem_parse_ne_empty (mem_of_mem_filtered (validated_last_mem hm))
    rw [choose_player_eq_choose_from hne, hm]
    unfold choose_from
    rw [if_pos hguard, if_pos (by simp [opt_truthy, hmne, hstm])]
  · intro hnotm
    rw [choose_player_eq_choose_from hne]
    cases hv : validated_last (filtered_players sel exc (parse_player_list ns)) last with
    | none =>
      unfold choose_from
      rw [if_pos hguard, if_neg (by simp [opt_truthy])]
      exact filter_head?_eq_find? _ _
    | some m =>
      have hstm := hnotm m hv
      unfold choose_from
      rw [if_pos hguard, if_neg (by simp [opt_truthy, hstm])]
      exact filter_head?_eq_find? _ _

/-- C1 witness: with candidates `vlc, spotify` both Playing and prior
choice `spotify`, the selector keeps `spotify`. -/
theorem claim_C1_witness :
    choose_player none [] "vlc\nspotify" (some "spotify")
      (fun _ => "Playing") = some "spotify" :=
  (claim_C1_sticky_playing none [] "vlc\nspotify" (some "spotify")
      (fun _ => "Playing") (by decide)).1 "spotify" (by decide) rfl

/-! ## C2: stickiness across pause (nobody Playing) -/

/-- C2, literal reading, is false on the code: with two Paused candidates
of the same normalized identity, the persisted prior choice `"vlc.b"` is
itself among the candidates with status Paused, yet `choose_player`
returns `"vlc.a"`, the first candidate with its normalized identity. -/
theorem claim_C2_counterexample :
    choose_player none [] "vlc.a\nvlc.b" (some "vlc.b")
        (fun _ => "Paused") = some "vlc.a"
    ∧ "vlc.b" ∈ filtered_players none [] (parse_player_list "vlc.a\nvlc.b")
    ∧ (fun _ : String => "Paused") "vlc.b" = "Paused"
    ∧ choose_player none [] "vlc.a\nvlc.b" (some "vlc.b")
        (fun _ => "Paused") ≠ some "vlc.b" := by
  refine ⟨by decide, by decide, rfl, by decide⟩

/-- C2 (amended): when no filtered candidate is Playing, if some
candidate matches the persisted prior choice's normalized identity and
the first such matching candidate (`validated_last`) has status Playing
or Paused, `choose_player` returns that first matching candidate (the
prior choice itself whenever it is the first match); otherwise it
returns the first Paused candidate in enumeration order, and if there is
none, the first candidate. -/
theorem claim_C2_sticky_paused (sel : Option String) (exc : List String)
    (ns : String) (last : Option String) (st : String → String)
    (hnoplay : ∀ n ∈ filtered_players sel exc (parse_player_list ns),
      st n ≠ "Playing") :
    (∀ m, validated_last (filtered_players sel exc (parse_player_list ns)) last = some m →
        st m = "Playing" ∨ st m = "Paused" →
        choose_player sel exc ns last st = some m)
    ∧ ((∀ m, validated_last (filtered_players sel exc (parse_player_list ns)) last = some m →
          st m ≠ "Playing" ∧ st m ≠ "Paused") →
        choose_player sel exc ns last st
          = match (filtered_players sel exc (parse_player_list ns)).find?
                (fun n => st n == "Paused") with
            | some q => some q
            | none => (filtered_players sel exc (parse_player_list ns)).head?) := by
  have hplaynil : ∀ h : filtered_players sel exc (parse_player_list ns) ≠ [],
      (filtered_players sel exc (parse_player_list ns)).filter
        (fun n => st n == "Playing") = [] := by
    intro _
    refine List.filter_eq_nil_iff.mpr (fun n hn => ?_)
    simp [hnoplay n hn]
  constructor
  · intro m hm hstm
    have hmem := validated_last_mem hm
    have hne : filtered_players sel exc (parse_player_list ns) ≠ [] :=
      List.ne_nil_of_mem hmem
    have hmne : m ≠ "" := mem_parse_ne_empty (mem_of_mem_filtered hmem)
    rw [choose_player_eq_choose_from hne, hm]
    unfold choose_from
    rw [if_neg (by simp [hplaynil hne]), if_pos ?_]
    rcases hstm with hstm | hstm <;> simp [opt_truthy, hmne, hstm]
  · intro hnotm
    by_cases hne : filtered_players sel exc (parse_player_list ns) = []
    · rw [choose_player_nil hne, hne]
      rfl
    · rw [choose_player_eq_choose_from hne,
        ← filter_head?_eq_find? (fun n => st n == "Paused")]
      have hrest :
          (if !((filtered_players sel exc (parse_player_list ns)).filter
              (fun n => st n == "Paused")).isEmpty then
            ((filtered_players sel exc (parse_player_list ns)).filter
              (fun n => st n == "Paused")).head?
          else (filtered_players sel exc (parse_player_list ns)).head?)
          = match ((filtered_players sel exc (parse_player_list ns)).filter
                (fun n => st n == "Paused")).head? with
            | some q => some q
            | none => (filtered_players sel exc (parse_player_list ns)).head? := by
        cases hfp : (filtered_players sel exc (parse_player_list ns)).filter
            (fun n => st n == "Paused") with
        | nil => simp
        | cons a t => simp
      cases hv : validated_last (filtered_players sel exc (parse_player_list ns)) last with
      | none =>
        unfold choose_from
        rw [if_neg (by simp [hplaynil hne]), if_neg (by simp [opt_truthy])]
        exact hrest
      | some m =>
        obtain ⟨hm1, hm2⟩ := hnotm m hv
        unfold choose_from
        rw [if_neg (by simp [hplaynil hne]), if_neg (by simp [opt_truthy, hm1, hm2])]
        exact hrest

/-- C2 witness: candidates `vlc, mpv` both Paused, prior choice `mpv`:
the selector keeps `mpv`. -/
theorem claim_C2_witness :
    choose_player none [] "vlc\nmpv" (some "mpv")
      (fun _ => "Paused") = some "mpv" :=
  (claim_C2_sticky_paused none [] "vlc\nmpv" (some "mpv")
      (fun _ => "Paused") (by decide)).1 "mpv" (by decide) (Or.inr rfl)

/-! ## C3: an absent prior choice is disregarded -/

lemma validated_last_eq_none {names : List String} {last_name : String}
    (hno : ∀ n ∈ names,
      normalize_player_name n ≠ normalize_player_name last_name) :
    validated_last names (some last_name) = none := by
  unfold validated_last
  split
  · have hnil : names.filter (fun n =>
        normalize_player_name n
          == normalize_player_name ((some last_name).getD "")) = [] := by
      refine List.filter_eq_nil_iff.mpr (fun n hn => ?_)
      simpa using hno n hn
    rw [hnil]
    rfl
  · rfl

/-- C3: a persisted prior choice whose normalized identity matches no
filtered candidate is disregarded entirely — `choose_player` behaves
exactly as with no prior choice at all, and never returns the prior
choice. -/
theorem claim_C3_absent_prior_disregarded (sel : Option String)
    (exc : List String) (ns : String) (st : String → String)
    (last_name : String)
    (hno : ∀ n ∈ filtered_players sel exc (parse_player_list ns),
      normalize_player_name n ≠ normalize_player_name last_name) :
    choose_player sel exc ns (some last_name) st = choose_player sel exc ns none st
    ∧ choose_player sel exc ns (some last_name) st ≠ some last_name := by
  constructor
  · unfold choose_player
    rw [validated_last_eq_none hno]
    have hvn : validated_last (filtered_players sel exc (parse_player_list ns)) none
        = none := rfl
    rw [hvn]
  · intro hcontra
    exact hno last_name (choose_player_mem hcontra) rfl

/-- C3 witness: prior choice `spotify` absent from the candidate list
`vlc`; selection ignores it. -/
theorem claim_C3_witness :
    choose_player none [] "vlc" (some "spotify") (fun _ => "Playing")
        = choose_player none [] "vlc" none (fun _ => "Playing")
    ∧ choose_player none [] "vlc" (some "spotify") (fun _ => "Playing")
        ≠ some "spotify" :=
  claim_C3_absent_prior_disregarded none [] "vlc" (fun _ => "Playing")
    "spotify" (by decide)

/-! ## C4: excluded players are never returned -/

lemma choose_player_not_excluded {sel : Option String} {exc : List String}
    {ns : String} {last : Option String} {st : String → String} {p : String}
    (hsel : opt_truthy sel = false)
    (h : choose_player sel exc ns last st = some p) :
    normalize_player_name p ∉ exc.filter (fun q => !(q == "")) :=
  mem_filtered_not_excluded hsel (choose_player_mem h)

/-- C4: with no forced player, no player whose normalized identity is in
the exclusion set (the truthy entries of the exclusion list) is ever
returned; in particular with exclusion list `["spotify"]` and running
players `spotify, vlc`, selection never returns `spotify`. -/
theorem claim_C4_excluded_never_returned (exc : List String) (ns : String)
    (last : Option String) (st : String → String) (p : String)
    (h : choose_player none exc ns last st = some p) :
    normalize_player_name p ∉ exc.filter (fun q => !(q == ""))
    ∧ ∀ (last2 : Option String) (st2 : String → String),
        choose_player none ["spotify"] "spotify\nvlc" last2 st2 ≠ some "spotify" := by
  refine ⟨choose_player_not_excluded (by decide) h, fun last2 st2 hcontra => ?_⟩
  have := choose_player_not_excluded (by decide) hcontra
  simp [normalize_player_name] at this

/-- C4 witness: excluding `spotify` among `spotify, vlc` selects `vlc`,
whose identity is not excluded. -/
theorem claim_C4_witness :
    normalize_player_name "vlc" ∉ ["spotify"].filter (fun q => !(q == ""))
    ∧ ∀ (last2 : Option String) (st2 : String → String),
        choose_player none ["spotify"] "spotify\nvlc" last2 st2 ≠ some "spotify" :=
  claim_C4_excluded_never_returned ["spotify"] "spotify\nvlc" none
    (fun _ => "Playing") "vlc" (by decide)

/-! ## C10: the returned player is a filtered candidate -/

/-- C10: whenever `choose_player` returns a player, that player is a
member of the filtered candidate list built from the enumeration; under a
truthy forced player it matches the forced player's normalized identity,
and otherwise its normalized identity is not in the exclusion set. -/
theorem claim_C10_result_is_filtered_candidate (sel : Option String)
    (exc : List String) (ns : String) (last : Option String)
    (st : String → String) (p : String)
    (h : choose_player sel exc ns last st = some p) :
    p ∈ filtered_players sel exc (parse_player_list ns)
    ∧ (opt_truthy sel = true →
        normalize_player_name p = normalize_player_name (sel.getD ""))
    ∧ (opt_truthy sel = false →
        normalize_player_name p ∉ exc.filter (fun q => !(q == ""))) :=
  ⟨choose_player_mem h,
   fun hsel => mem_filtered_forced hsel (choose_player_mem h),
   fun hsel => mem_filtered_not_excluded hsel (choose_player_mem h)⟩

/-- C10 witness: forcing `spotify` among `spotify.instance1, vlc` returns
`spotify.instance1`, a filtered candidate matching the forced identity. -/
theorem claim_C10_witness :
    "spotify.instance1" ∈ filtered_players (some "spotify") ["x"]
        (parse_player_list "spotify.instance1\nvlc")
    ∧ (opt_truthy (some "spotify") = true →
        normalize_player_name "spotify.instance1"
          = normalize_player_name ((some "spotify").getD ""))
    ∧ (opt_truthy (some "spotify") = false →
        normalize_player_name "spotify.instance1"
          ∉ ["x"].filter (fun q => !(q == ""))) :=
  claim_C10_result_is_filtered_candidate (some "spotify") ["x"]
    "spotify.instance1\nvlc" none (fun _ => "Playing") "spotify.instance1"
    (by decide)

/-! ## C5: spotify advertisement detection -/

/-- C5: when the chosen player's normalized identity is `spotify`, the
status is Playing and the track identifier contains `:ad:`
case-insensitively, the display text (`track_info`) is exactly
`"Advertisement"` regardless of artist and title, and the emitted
payload's text is the play icon followed by `"Advertisement"`. -/
theorem claim_C5_advertisement (player : String) (artist title : Option String)
    (trackid : String)
    (h1 : normalize_player_name player = "spotify")
    (h2 : str_contains (py_lower trackid) ":ad:" = true) :
    track_info_of player artist title (some trackid) = "Advertisement"
    ∧ (build_output (some player) (some "Playing") artist title (some trackid)).map
        Payload.text = some ("󰐊" ++ "  " ++ "Advertisement") := by
  have hpne : player ≠ "" := by
    intro he
    rw [he] at h1
    exact absurd h1 (by decide)
  have hsp : (py_lower (normalize_player_name player) == "spotify") = true := by
    rw [h1]
    decide
  have hti : track_info_of player artist title (some trackid) = "Advertisement" := by
    simp [track_info_of, hsp, h2]
  refine ⟨hti, ?_⟩
  simp [build_output, opt_truthy, hpne, normalized_status_of, hti]

/-- C5 witness: spotify playing an ad with artist and title supplied. -/
theorem claim_C5_witness :
    track_info_of "spotify" (some "Artist") (some "Title")
        (some "/com/spotify/Track/x:AD:y") = "Advertisement"
    ∧ (build_output (some "spotify") (some "Playing") (some "Artist") (some "Title")
        (some "/com/spotify/Track/x:AD:y")).map Payload.text
        = some ("󰐊" ++ "  " ++ "Advertisement") :=
  claim_C5_advertisement "spotify" (some "Artist") (some "Title")
    "/com/spotify/Track/x:AD:y" (by decide) (by decide)

/-! ## C6: Stopped displays as Paused; other statuses hide -/

/-- C6: for every truthy chosen player, `build_output` treats `Stopped`
exactly as `Paused` and still produces a payload, while any status
outside Playing/Paused/Stopped makes `build_output` hide and the emitted
stdout line is the hidden (empty-but-valid) payload rather than an
error. -/
theorem claim_C6_stopped_as_paused (player : String)
    (artist title trackid : Option String) (hp : player ≠ "") :
    (build_output (some player) (some "Stopped") artist title trackid
        = build_output (some player) (some "Paused") artist title trackid
      ∧ (build_output (some player) (some "Stopped") artist title trackid).isSome = true)
    ∧ (∀ status : Option String, status ≠ some "Playing" → status ≠ some "Paused" →
        status ≠ some "Stopped" →
        build_output (some player) status artist title trackid = none
        ∧ output_line (build_output (some player) status artist title trackid)
            = json_obj hidden_payload ++ "\n") := by
  have hnorm : normalized_status_of (some "Stopped") = normalized_status_of (some "Paused") := by
    decide
  refine ⟨⟨by unfold build_output; rw [hnorm], ?_⟩, ?_⟩
  · simp [build_output, opt_truthy, hp, normalized_status_of]
  · intro status h1 h2 h3
    have hns : normalized_status_of status = status := by
      unfold normalized_status_of
      rw [if_neg]
      simpa using h3
    have hnone : build_output (some player) status artist title trackid = none := by
      simp [build_output, opt_truthy, hp, hns, h1, h2]
    exact ⟨hnone, by rw [hnone]; rfl⟩

/-- C6 witness: player `vlc`, no metadata. -/
theorem claim_C6_witness :
    (build_output (some "vlc") (some "Stopped") none none none
        = build_output (some "vlc") (some "Paused") none none none
      ∧ (build_output (some "vlc") (some "Stopped") none none none).isSome = true)
    ∧ (∀ status : Option String, status ≠ some "Playing" → status ≠ some "Paused" →
        status ≠ some "Stopped" →
        build_output (some "vlc") status none none none = none
        ∧ output_line (build_output (some "vlc") status none none none)
            = json_obj hidden_payload ++ "\n") :=
  claim_C6_stopped_as_paused "vlc" none none none (by decide)

/-! ## C7: persistence round trip -/

/-- C7, literal reading, is false on the code at the empty identity: the
loader's `data.get("player") or None` maps a persisted empty string back
to `None`, not to the empty string. -/
theorem claim_C7_counterexample :
    load_last_player (some (save_last_player "")) = none
    ∧ load_last_player (some (save_last_player "")) ≠ some "" := by
  exact ⟨rfl, by decide⟩

/-- C7 (amended): for every nonempty player identity, saving it and then
loading with no intervening write yields the same identity back.  (The
script only ever saves truthy identities, so the nonemptiness restriction
matches every reachable call.) -/
theorem claim_C7_roundtrip (name : String) (h : name ≠ "") :
    load_last_player (some (save_last_player name)) = some name := by
  simp [load_last_player, save_last_player, h]

/-- C7 witness. -/
theorem claim_C7_witness :
    load_last_player (some (save_last_player "spotify")) = some "spotify" :=
  claim_C7_roundtrip "spotify" (by decide)

/-! ## C9: the CSS class token -/

lemma char_toNat_ofNat {n : Nat} (h : n.isValidChar) : (Char.ofNat n).toNat = n := by
  rw [Char.ofNat, dif_pos h]
  rfl

lemma char_isUpper_iff (x : Char) : x.isUpper = true ↔ 65 ≤ x.toNat ∧ x.toNat ≤ 90 := by
  simp [Char.isUpper, Char.toNat, UInt32.le_def, BitVec.le_def, UInt32.toNat]

lemma isUpper_toLower_false (c : Char) : (Char.toLower c).isUpper = false := by
  unfold Char.toLower
  by_cases h : c.toNat ≥ 65 ∧ c.toNat ≤ 90
  · rw [if_pos h]
    have hv : (c.toNat + 32).isValidChar := Or.inl (by omega)
    have ht := char_toNat_ofNat hv
    rw [← Bool.not_eq_true]
    intro hu
    have := (char_isUpper_iff _).mp hu
    omega
  · rw [if_neg h]
    rw [← Bool.not_eq_true]
    intro hu
    exact h ((char_isUpper_iff c).mp hu)

lemma string_mk_data (s : String) : String.mk s.data = s := by
  cases s
  rfl

lemma head?_dropWhile_false {α : Type} {p : α → Bool} {l : List α} {a : α}
    (h : (l.dropWhile p).head? = some a) : p a = false := by
  induction l with
  | nil => simp at h
  | cons c t ih =>
    rw [List.dropWhile_cons] at h
    split at h
    · exact ih h
    · simp only [List.head?, Option.some.injEq] at h
      subst h
      simpa using (by assumption : ¬ p c = true)

lemma py_strip_eq_self {s : String}
    (h1 : ∀ c, s.data.head? = some c → c.isWhitespace = false)
    (h2 : ∀ c, s.data.getLast? = some c → c.isWhitespace = false) :
    py_strip s = s := by
  unfold py_strip
  have d1 : s.data.dropWhile Char.isWhitespace = s.data := by
    cases hd : s.data with
    | nil => rfl
    | cons c rest =>
      rw [List.dropWhile_cons, if_neg]
      simp [h1 c (by rw [hd]; rfl)]
  rw [d1]
  have d2 : s.data.reverse.dropWhile Char.isWhitespace = s.data.reverse := by
    cases hd : s.data.reverse with
    | nil => rfl
    | cons c rest =>
      have hlast : s.data.getLast? = some c := by
        rw [← List.head?_reverse, hd]
        rfl
      rw [List.dropWhile_cons, if_neg]
      simp [h2 c hlast]
  rw [d2, List.reverse_reverse, string_mk_data]

lemma mem_strip_marks {s : String} {c : Char} (h : c ∈ (strip_marks s).data) :
    c ∈ s.data := by
  have h1 : c ∈ ((s.data.dropWhile (fun d => d == '_' || d == '.')).reverse.dropWhile
      (fun d => d == '_' || d == '.')).reverse := h
  rw [List.mem_reverse] at h1
  have h2 := (List.dropWhile_sublist (l := (s.data.dropWhile
      (fun d => d == '_' || d == '.')).reverse) (fun d => d == '_' || d == '.')).subset h1
  rw [List.mem_reverse] at h2
  exact (List.dropWhile_sublist (fun d => d == '_' || d == '.')).subset h2

lemma strip_marks_head {s : String} {c : Char}
    (h : (strip_marks s).data.head? = some c) : (c == '_' || c == '.') = false := by
  have h1 : ((s.data.dropWhile (fun d => d == '_' || d == '.')).reverse.dropWhile
      (fun d => d == '_' || d == '.')).reverse.head? = some c := h
  rw [List.head?_reverse] at h1
  obtain ⟨t, ht⟩ := List.dropWhile_suffix
    (l := (s.data.dropWhile (fun d => d == '_' || d == '.')).reverse)
    (fun d => d == '_' || d == '.')
  have h2 : (s.data.dropWhile (fun d => d == '_' || d == '.')).reverse.getLast?
      = some c := by
    rw [← ht, List.getLast?_append, h1]
    rfl
  rw [List.getLast?_reverse] at h2
  exact head?_dropWhile_false (p := fun d => d == '_' || d == '.') h2

lemma strip_marks_last {s : String} {c : Char}
    (h : (strip_marks s).data.getLast? = some c) : (c == '_' || c == '.') = false := by
  have h1 : ((s.data.dropWhile (fun d => d == '_' || d == '.')).reverse.dropWhile
      (fun d => d == '_' || d == '.')).reverse.getLast? = some c := h
  rw [List.getLast?_reverse] at h1
  exact head?_dropWhile_false (p := fun d => d == '_' || d == '.') h1

lemma slugify_class_eval (s : String) :
    slugify_class s
      = (if strip_marks (String.mk ((py_lower s).data.map
            (fun ch => if ch.isAlphanum || ch == '.' then ch else '_'))) = ""
         then "player"
         else strip_marks (String.mk ((py_lower s).data.map
            (fun ch => if ch.isAlphanum || ch == '.' then ch else '_')))) := rfl

lemma slugify_class_ne_empty (s : String) : slugify_class s ≠ "" := by
  rw [slugify_class_eval]
  split
  · decide
  · assumption

lemma slugify_class_chars (s : String) :
    ∀ c ∈ (slugify_class s).data,
      (c.isAlphanum || c == '.' || c == '_') = true ∧ c.isUpper = false := by
  intro c hc
  rw [slugify_class_eval] at hc
  split at hc
  · have hall : ∀ d ∈ ("player" : String).data,
        (d.isAlphanum || d == '.' || d == '_') = true ∧ d.isUpper = false := by decide
    exact hall c hc
  · have hm2 : c ∈ (py_lower s).data.map
        (fun ch => if ch.isAlphanum || ch == '.' then ch else '_') := mem_strip_marks hc
    obtain ⟨a, ha_mem, ha⟩ := List.mem_map.mp hm2
    have hmm : a ∈ s.data.map Char.toLower := ha_mem
    obtain ⟨a0, _, ha0⟩ := List.mem_map.mp hmm
    subst ha0
    by_cases hcond : ((Char.toLower a0).isAlphanum || (Char.toLower a0) == '.') = true
    · rw [if_pos hcond] at ha
      subst ha
      refine ⟨?_, isUpper_toLower_false a0⟩
      have hcond2 := hcond
      simp only [Bool.or_eq_true] at hcond2
      rcases hcond2 with hx | hx
      · simp [hx]
      · simp [hx]
    · rw [if_neg hcond] at ha
      subst ha
      exact ⟨by decide, by decide⟩

lemma slugify_class_head (s : String) :
    ∀ c, (slugify_class s).data.head? = some c → (c == '_' || c == '.') = false := by
  intro c hc
  rw [slugify_class_eval] at hc
  split at hc
  · have hp : ("player" : String).data.head? = some 'p' := rfl
    rw [hp] at hc
    injection hc with hc
    rw [← hc]
    decide
  · exact strip_marks_head hc

lemma build_output_inv {player : String} {status artist title trackid : Option String}
    {p : Payload} (h : build_output (some player) status artist title trackid = some p) :
    (player == "") = false
    ∧ ((normalized_status_of status == some "Playing")
        || (normalized_status_of status == some "Paused")) = true
    ∧ p.cls = py_strip ("custom-" ++ slugify_class player ++ " "
        ++ py_lower ((normalized_status_of status).getD "")) := by
  unfold build_output at h
  by_cases hp : (player == "") = true
  · rw [if_pos (by simp [opt_truthy, hp])] at h
    exact Option.noConfusion h
  · rw [Bool.not_eq_true] at hp
    rw [if_neg (by simp [opt_truthy, hp])] at h
    by_cases hg : ((normalized_status_of status == some "Playing")
        || (normalized_status_of status == some "Paused")) = true
    · refine ⟨hp, hg, ?_⟩
      rw [if_neg (by simp [hg])] at h
      rw [if_neg (by split <;> simp)] at h
      injection h with h
      rw [← h]
      rfl
    · rw [Bool.not_eq_true] at hg
      rw [if_pos (by simp [hg])] at h
      exact Option.noConfusion h

lemma cls_strip_eq (slug : String) (stat : String)
    (hs : stat = "playing" ∨ stat = "paused") :
    py_strip ("custom-" ++ slug ++ " " ++ stat) = "custom-" ++ slug ++ " " ++ stat := by
  apply py_strip_eq_self
  · intro c hc
    have hd : (("custom-" ++ slug ++ " " ++ stat)).data.head? = some 'c' := by
      simp only [String.data_append]
      rfl
    rw [hd] at hc
    injection hc with hc
    rw [← hc]
    decide
  · intro c hc
    rcases hs with h | h <;> subst h
    · have hd : (("custom-" ++ slug ++ " " ++ "playing")).data.getLast? = some 'g' := by
        simp only [String.data_append, List.getLast?_append]
        rfl
      rw [hd] at hc
      injection hc with hc
      rw [← hc]
      decide
    · have hd : (("custom-" ++ slug ++ " " ++ "paused")).data.getLast? = some 'd' := by
        simp only [String.data_append, List.getLast?_append]
        rfl
      rw [hd] at hc
      injection hc with hc
      rw [← hc]
      decide

lemma slugify_class_last (s : String) :
    ∀ c, (slugify_class s).data.getLast? = some c → (c == '_' || c == '.') = false := by
  intro c hc
  rw [slugify_class_eval] at hc
  split at hc
  · have hp : ("player" : String).data.getLast? = some 'r' := by decide
    rw [hp] at hc
    injection hc with hc
    rw [← hc]
    decide
  · exact strip_marks_last hc

/-- C9, literal reading, is false on the code: the emitted class is not
the bare slug concatenated with the lowercase status — the code prepends
the fixed `custom-` prefix and separates slug and status with a space. -/
theorem claim_C9_counterexample :
    build_output (some "spotify") (some "Playing") none none none
      = some ⟨"󰐊", "custom-spotify playing", "spotify"⟩
    ∧ "custom-spotify playing"
      ≠ slugify_class "spotify"
        ++ py_lower ((normalized_status_of (some "Playing")).getD "") := by
  exact ⟨by decide, by decide⟩

/-- C9 (amended): the `class` field of every emitted payload is the fixed
prefix `custom-` followed by the CSS-token-safe slug of the player
identity, a space, and the lowercase normalized status; the slug is
nonempty, lowercase (no uppercase ASCII letter survives), uses only
alphanumerics, `'.'` and `'_'`, and neither starts nor ends with `'_'`
or `'.'` (the fallback token `"player"` covers the would-be-empty
case). -/
theorem claim_C9_class_token (player : String)
    (status artist title trackid : Option String) (p : Payload)
    (h : build_output (some player) status artist title trackid = some p) :
    p.cls = "custom-" ++ slugify_class player ++ " "
        ++ py_lower ((normalized_status_of status).getD "")
    ∧ slugify_class player ≠ ""
    ∧ (∀ c ∈ (slugify_class player).data,
        (c.isAlphanum || c == '.' || c == '_') = true ∧ c.isUpper = false)
    ∧ (∀ c, (slugify_class player).data.head? = some c → (c == '_' || c == '.') = false)
    ∧ (∀ c, (slugify_class player).data.getLast? = some c →
        (c == '_' || c == '.') = false) := by
  obtain ⟨hp, hg, hcls⟩ := build_output_inv h
  have hstat : py_lower ((normalized_status_of status).getD "") = "playing"
      ∨ py_lower ((normalized_status_of status).getD "") = "paused" := by
    simp only [Bool.or_eq_true] at hg
    rcases hg with hg | hg
    · left
      rw [beq_iff_eq] at hg
      rw [hg]
      decide
    · right
      rw [beq_iff_eq] at hg
      rw [hg]
      decide
  refine ⟨?_, slugify_class_ne_empty player, slugify_class_chars player,
    slugify_class_head player, slugify_class_last player⟩
  rw [hcls]
  rcases hstat with hs | hs <;> rw [hs]
  · exact cls_strip_eq _ "playing" (Or.inl rfl)
  · exact cls_strip_eq _ "paused" (Or.inr rfl)

/-- C9 witness: the spotify/Playing payload's class field. -/
theorem claim_C9_witness :
    ("custom-spotify playing" : String)
      = "custom-" ++ slugify_class "spotify" ++ " "
        ++ py_lower ((normalized_status_of (some "Playing")).getD "") :=
  (claim_C9_class_token "spotify" (some "Playing") none none none
    ⟨"󰐊", "custom-spotify playing", "spotify"⟩ (by decide)).1

/-! ## C8: main always emits exactly one valid JSON line -/

lemma hex_digit_char_ne_newline (n : Nat) : hex_digit_char n ≠ '\n' := by
  have he : hex_digit_char n = (("0123456789abcdef" : String).data.get? n).getD '0' := rfl
  rw [he]
  cases hg : ("0123456789abcdef" : String).data.get? n with
  | none => decide
  | some c =>
    have hmem : c ∈ ("0123456789abcdef" : String).data := List.get?_mem hg
    have hall : ∀ d ∈ ("0123456789abcdef" : String).data, d ≠ '\n' := by decide
    simpa using hall c hmem

lemma json_escape_char_no_newline (c : Char) : '\n' ∉ (json_escape_char c).data := by
  unfold json_escape_char
  by_cases h1 : c = '"'
  · rw [if_pos h1]; decide
  rw [if_neg h1]
  by_cases h2 : c = '\\'
  · rw [if_pos h2]; decide
  rw [if_neg h2]
  by_cases h3 : c = '\n'
  · rw [if_pos h3]; decide
  rw [if_neg h3]
  by_cases h4 : c = '\t'
  · rw [if_pos h4]; decide
  rw [if_neg h4]
  by_cases h5 : c = '\r'
  · rw [if_pos h5]; decide
  rw [if_neg h5]
  by_cases h6 : c.toNat < 32
  · rw [if_pos h6]
    intro hmem
    rw [String.data_append] at hmem
    rcases List.mem_append.mp hmem with hm | hm
    · exact absurd hm (by decide)
    · have hdata : (hex2 c.toNat).data
          = [hex_digit_char ((c.toNat / 16) % 16), hex_digit_char (c.toNat % 16)] := rfl
      rw [hdata] at hm
      simp only [List.mem_cons, List.not_mem_nil, or_false] at hm
      rcases hm with hm | hm
      · exact hex_digit_char_ne_newline _ hm.symm
      · exact hex_digit_char_ne_newline _ hm.symm
  · rw [if_neg h6]
    intro hmem
    have hcm : '\n' = c := by simpa using hmem
    exact h3 hcm.symm

lemma json_escape_list_no_newline (l : List Char) : '\n' ∉ (json_escape_list l).data := by
  induction l with
  | nil => decide
  | cons c cs ih =>
    intro hmem
    rw [show json_escape_list (c :: cs) = json_escape_char c ++ json_escape_list cs
      from rfl, String.data_append] at hmem
    rcases List.mem_append.mp hmem with hm | hm
    · exact json_escape_char_no_newline c hm
    · exact ih hm

lemma json_str_no_newline (s : String) : '\n' ∉ (json_str s).data := by
  intro hmem
  unfold json_str at hmem
  simp only [String.data_append, List.mem_append] at hmem
  rcases hmem with (hm | hm) | hm
  · exact absurd hm (by decide)
  · exact json_escape_list_no_newline _ hm
  · exact absurd hm (by decide)

lemma json_fields_str_no_newline (fields : List (String × String)) :
    '\n' ∉ (json_fields_str fields).data := by
  induction fields with
  | nil => decide
  | cons kv rest ih =>
    obtain ⟨k, v⟩ := kv
    intro hmem
    cases rest with
    | nil =>
      have hfs : json_fields_str [(k, v)]
          = json_str k ++ ": " ++ json_str v ++ ""
            ++ json_fields_str ([] : List (String × String)) := rfl
      rw [hfs] at hmem
      simp only [String.data_append, List.mem_append] at hmem
      rcases hmem with ((((hm | hm) | hm) | hm) | hm)
      · exact json_str_no_newline k hm
      · exact absurd hm (by decide)
      · exact json_str_no_newline v hm
      · exact absurd hm (by decide)
      · exact absurd hm (by decide)
    | cons kv2 rest2 =>
      have hfs : json_fields_str ((k, v) :: kv2 :: rest2)
          = json_str k ++ ": " ++ json_str v ++ ", "
            ++ json_fields_str (kv2 :: rest2) := rfl
      rw [hfs] at hmem
      simp only [String.data_append, List.mem_append] at hmem
      rcases hmem with ((((hm | hm) | hm) | hm) | hm)
      · exact json_str_no_newline k hm
      · exact absurd hm (by decide)
      · exact json_str_no_newline v hm
      · exact absurd hm (by decide)
      · exact ih hm

lemma json_obj_no_newline (fields : List (String × String)) :
    '\n' ∉ (json_obj fields).data := by
  intro hmem
  unfold json_obj at hmem
  simp only [String.data_append, List.mem_append] at hmem
  rcases hmem with (hm | hm) | hm
  · exact absurd hm (by decide)
  · exact json_fields_str_no_newline fields hm
  · exact absurd hm (by decide)

lemma output_line_shape (o : Option Payload) :
    ∃ fields, output_line o = json_obj fields ++ "\n" := by
  cases o with
  | none => exact ⟨hidden_payload, rfl⟩
  | some p => exact ⟨payload_fields p, rfl⟩

/-- C8: for every combination of step outcomes (selection and metadata,
each possibly raising), `main` writes exactly one newline-terminated line
that is the rendering of a JSON object — the hidden payload
`\x7b"text": "", "alt": "", "class": "hidden"\x7d` when selection raised
or found no player, or when the metadata step raised — and, being a total
function of the outcomes, never propagates an exception. -/
theorem claim_C8_always_one_json_line (chooseR : StepResult (Option String))
    (metaR : StepResult String) :
    (∃ fields, main_model chooseR metaR = json_obj fields ++ "\n"
      ∧ '\n' ∉ (json_obj fields).data)
    ∧ ((chooseR = .raises ∨ chooseR = .ok none) →
        main_model chooseR metaR = json_obj hidden_payload ++ "\n")
    ∧ (∀ name, chooseR = .ok (some name) → metaR = .raises →
        main_model chooseR metaR = json_obj hidden_payload ++ "\n") := by
  refine ⟨?_, ?_, ?_⟩
  · cases chooseR with
    | raises => exact ⟨hidden_payload, rfl, json_obj_no_newline _⟩
    | ok pn =>
      cases hb : opt_truthy pn with
      | false =>
        refine ⟨hidden_payload, ?_, json_obj_no_newline _⟩
        simp [main_model, hb]
        rfl
      | true =>
        cases metaR with
        | raises =>
          refine ⟨hidden_payload, ?_, json_obj_no_newline _⟩
          simp [main_model, hb]
          rfl
        | ok meta =>
          obtain ⟨fields, hf⟩ := output_line_shape
            (build_output pn (get_player_info meta).1 (get_player_info meta).2.1
              (get_player_info meta).2.2.1 (get_player_info meta).2.2.2)
          refine ⟨fields, ?_, json_obj_no_newline _⟩
          simpa [main_model, hb] using hf
  · intro hc
    rcases hc with hc | hc <;> subst hc <;> rfl
  · intro name hc hm
    subst hc
    subst hm
    cases hb : opt_truthy (some name) with
    | false =>
      simp [main_model, hb]
      rfl
    | true =>
      simp [main_model, hb]
      rfl

/-- C8 witness: a raising selection step still yields the hidden JSON
line. -/
theorem claim_C8_witness :
    main_model .raises .raises = json_obj hidden_payload ++ "\n" :=
  (claim_C8_always_one_json_line .raises .raises).2.1 (Or.inl rfl)
